import Mathlib

/-!
Verification development for the HTTP-backed space-primitives client
(`HttpSpacePrimitives`): a shallow embedding of the TypeScript class into
Lean 4 definitions, followed by theorems settling the specification claims.

Modelling conventions:
* JavaScript strings are Lean `String`; byte buffers (`ArrayBuffer` /
  `Uint8Array`) are `List Nat` (each entry a byte value).
* A `fetch` exchange is modelled by passing the server `Response` as an
  explicit argument; each operation returns `Except JsError result`
  (a thrown `Error` becomes `Except.error`) together with the browser
  side effects (`location.reload()`, cache flushes, `alert`) accumulated
  during the call.
* Optional constructor parameters (`user`, `password`, `expectedSpacePath`)
  are `Option String`; JavaScript truthiness of such a value (`undefined`
  and the empty string are falsy) is `truthy`.
* Response header lookup (`Headers.get`) is case-insensitive, per the
  fetch API; request headers are a plain JavaScript object, so keys are
  exact strings.
-/

/-- JavaScript truthiness of an optional string: `undefined`/absent and the
empty string are falsy, every other string is truthy. -/
def truthy : Option String → Bool
  | none => false
  | some s => s != ""

/-- Result of JavaScript numeric coercion (`+x` / `Number(x)`) as it applies
to header values: either a number or `NaN`. -/
inductive JsNum where
  | nan : JsNum
  | int (n : Int) : JsNum
  deriving DecidableEq, Repr

/-- The natural number denoted by a list of decimal digit characters. -/
def digitsToNat (l : List Char) : Nat :=
  l.foldl (fun n c => n * 10 + (c.toNat - 48)) 0

/-- JavaScript `Number(s)` for a string, restricted to the shapes that occur
here: the empty string coerces to `0`, a (possibly minus-signed) decimal
integer string to that integer, anything else to `NaN`. -/
def jsNumberOfString (s : String) : JsNum :=
  match s.toList with
  | [] => .int 0
  | c :: cs =>
    if (c :: cs).all (fun d => d.isDigit) then
      .int (Int.ofNat (digitsToNat (c :: cs)))
    else if c.toNat = 45 ∧ cs ≠ [] ∧ cs.all (fun d => d.isDigit) then
      .int (-(Int.ofNat (digitsToNat cs)))
    else .nan

/-- JavaScript unary plus applied to `Headers.get`'s result
(`string | null`): `+null` is `0`, a string goes through `Number`. -/
def jsUnaryPlus : Option String → JsNum
  | none => .int 0
  | some s => jsNumberOfString s

/-- JavaScript `x || d` for `x : string | null`: `null` and the empty string
fall through to the default. -/
def jsOrString (x : Option String) (d : String) : String :=
  match x with
  | none => d
  | some s => if s = "" then d else s

/-- The base64 alphabet, as a character for each 6-bit value. -/
def b64Char (n : Nat) : Char :=
  if n < 26 then Char.ofNat (65 + n)
  else if n < 52 then Char.ofNat (97 + (n - 26))
  else if n < 62 then Char.ofNat (48 + (n - 52))
  else if n = 62 then Char.ofNat 43
  else Char.ofNat 47

/-- The 6-bit value of a base64 alphabet character (`none` for characters
outside the alphabet, such as the `=` padding). -/
def b64Val (c : Char) : Option Nat :=
  let n := c.toNat
  if 65 ≤ n ∧ n ≤ 90 then some (n - 65)
  else if 97 ≤ n ∧ n ≤ 122 then some (n - 97 + 26)
  else if 48 ≤ n ∧ n ≤ 57 then some (n - 48 + 52)
  else if n = 43 then some 62
  else if n = 47 then some 63
  else none

/-- Encode a list of bytes in base64, three bytes to four characters, with
`=` padding. -/
def base64EncodeBytes : List Nat → List Char
  | [] => []
  | [a] =>
      [b64Char (a / 4), b64Char (a % 4 * 16), Char.ofNat 61, Char.ofNat 61]
  | [a, b] =>
      [b64Char (a / 4), b64Char (a % 4 * 16 + b / 16),
       b64Char (b % 16 * 4), Char.ofNat 61]
  | a :: b :: c :: rest =>
      b64Char (a / 4) :: b64Char (a % 4 * 16 + b / 16) ::
      b64Char (b % 16 * 4 + c / 64) :: b64Char (c % 64) ::
      base64EncodeBytes rest

/-- Decode a stream of 6-bit values into bytes, four values to three bytes;
a trailing group of two or three values yields one or two bytes. -/
def b64DecodeVals : List Nat → List Nat
  | a :: b :: c :: d :: rest =>
      (a * 4 + b / 16) :: (b % 16 * 16 + c / 4) :: (c % 4 * 64 + d) ::
      b64DecodeVals rest
  | [a, b] => [a * 4 + b / 16]
  | [a, b, c] => [a * 4 + b / 16, b % 16 * 16 + c / 4]
  | _ => []

/-- Decode a base64 string into bytes, ignoring padding and characters
outside the alphabet. -/
def base64Decode (s : String) : List Nat :=
  b64DecodeVals (s.toList.filterMap b64Val)

/-- JavaScript `btoa`: base64-encode the code units of a (latin-1) string. -/
def btoa (s : String) : String :=
  String.mk (base64EncodeBytes (s.toList.map Char.toNat))

/-- Characters after the first comma (code 44), to the end of the input. -/
def dropThroughComma : List Char → List Char
  | [] => []
  | c :: rest => if c.toNat = 44 then rest else dropThroughComma rest

/-- Characters before the first comma (code 44). -/
def takeToComma : List Char → List Char
  | [] => []
  | c :: rest => if c.toNat = 44 then [] else c :: takeToComma rest

/-- Modelled from the spec: `base64DecodeDataUrl` from the asset-bundle
base64 module (imported by the source but not part of it). A data URL is a
MIME type plus a base64 payload in one string; this takes the payload
between the first comma and the next comma or the end (the JavaScript
`dataUrl.split(",", 2)[1]`) and base64-decodes it, yielding the raw
bytes. -/
def base64DecodeDataUrl (dataUrl : String) : List Nat :=
  base64Decode (String.mk (takeToComma (dropThroughComma dataUrl.toList)))

/-- Modelled from the spec: `base64EncodedDataUrl` from the asset-bundle
base64 module (imported by the source but not part of it). Wraps raw bytes
as a self-describing data URL with the given MIME type. -/
def base64EncodedDataUrl (mimeType : String) (bytes : List Nat) : String :=
  "data:" ++ mimeType ++ ";base64," ++ String.mk (base64EncodeBytes bytes)

/-- ASCII lowercasing of a character (header names are ASCII). -/
def lowerChar (c : Char) : Char :=
  if 65 ≤ c.toNat ∧ c.toNat ≤ 90 then Char.ofNat (c.toNat + 32) else c

/-- ASCII lowercasing of a string. -/
def lowerStr (s : String) : String :=
  String.mk (s.toList.map lowerChar)

/-- Case-insensitive header lookup, as the fetch API `Headers.get`. -/
def headersGet (hs : List (String × String)) (k : String) : Option String :=
  (hs.find? (fun p => lowerStr p.1 == lowerStr k)).map (fun p => p.2)

/-- Assignment `obj[k] = v` on a plain JavaScript record: replaces the value
under the exact key `k` when present, otherwise appends the binding. -/
def recordSet (hs : List (String × String)) (k v : String) :
    List (String × String) :=
  if hs.any (fun p => p.1 == k) then
    hs.map (fun p => if p.1 == k then (k, v) else p)
  else hs ++ [(k, v)]

/-- Exact-key lookup on a plain JavaScript record. -/
def recordGet (hs : List (String × String)) (k : String) : Option String :=
  (hs.find? (fun p => p.1 == k)).map (fun p => p.2)

/-- A file metadata record as produced by the client: `size` and
`lastModified` carry the result of JavaScript numeric coercion of the
corresponding header. -/
structure FileMeta where
  name : String
  size : JsNum
  contentType : Option String
  lastModified : JsNum
  perm : String
  deriving DecidableEq, Repr

/-- File content in one of the representations of the `FileData` union:
a byte buffer (`ArrayBuffer`/`Uint8Array`) or a string (UTF-8 text or a
data URL). -/
inductive FileData where
  | buffer (bytes : List Nat) : FileData
  | str (s : String) : FileData
  deriving DecidableEq, Repr

/-- The encoding selector passed to read and write. -/
inductive FileEncoding where
  | arraybuffer : FileEncoding
  | dataurl : FileEncoding
  | utf8 : FileEncoding
  deriving DecidableEq, Repr

/-- A request body: a byte array or a string (`null` is `Option.none` at the
use site). -/
inductive Body where
  | bytes (l : List Nat) : Body
  | str (s : String) : Body
  deriving DecidableEq, Repr

/-- The parts of a fetch `RequestInit` the client uses: method, a header
record, and an optional body. An absent `headers` field is the empty
record. -/
structure RequestInit where
  method : String
  headers : List (String × String) := []
  body : Option Body := none
  deriving DecidableEq, Repr

/-- The parts of a fetch `Response` the client reads: status, status text,
whether the response chain ended in a redirect, the headers, and the body
under its three accessors (`arrayBuffer()`, `text()`, `json()` as a file
list). -/
structure Response where
  status : Nat
  statusText : String := ""
  redirected : Bool := false
  headers : List (String × String) := []
  bytes : List Nat := []
  text : String := ""
  jsonList : List FileMeta := []
  deriving DecidableEq, Repr

/-- A thrown JavaScript `Error`, identified by its message. -/
structure JsError where
  message : String
  deriving DecidableEq, Repr

/-- Browser side effects performed during a call: `location.reload()`
invocations, cache-flush/service-worker-unregister invocations, and
`alert` invocations. -/
structure Effects where
  reloads : Nat := 0
  cacheFlushes : Nat := 0
  alerts : Nat := 0
  deriving DecidableEq, Repr

/-- No side effects. -/
def noEffects : Effects := {}

/-- The browser environment: whether a global `location` object exists
(`typeof location !== "undefined"`). -/
structure Env where
  hasLocation : Bool
  deriving DecidableEq, Repr

/-- The immutable connection parameters of an `HttpSpacePrimitives`
instance. -/
structure Client where
  url : String := ""
  expectedSpacePath : Option String := none
  user : Option String := none
  password : Option String := none
  deriving DecidableEq, Repr

/-- The synthesized authentication cookie value for a credential pair. -/
def authCookieValue (user password : String) : String :=
  "auth=" ++ btoa (user ++ ":" ++ password)

/-- The credential-injection step of `authenticatedFetch`: when both user
and password are truthy, set the `cookie` key of the request headers to the
synthesized auth cookie (creating the header record when absent); otherwise
leave the options untouched. The result is the `RequestInit` handed to
`fetch`, i.e. the request actually sent. -/
def buildRequest (c : Client) (options : RequestInit) : RequestInit :=
  if truthy c.user && truthy c.password then
    { options with
      headers := recordSet options.headers "cookie"
        (authCookieValue (c.user.getD "") (c.password.getD "")) }
  else options

/-- `authenticatedFetch` after the response arrives: a 401 status or a
redirected response chain triggers `location.reload()` (only when a
`location` global exists) and throws `Error("Unauthorized")`; otherwise the
response is returned unchanged. -/
def authenticatedFetch (env : Env) (resp : Response) :
    Except JsError Response × Effects :=
  if resp.status == 401 || resp.redirected then
    (Except.error ⟨"Unauthorized"⟩,
     { reloads := if env.hasLocation then 1 else 0 })
  else (Except.ok resp, noEffects)

/-- `responseToMeta`: project a response's headers to a `FileMeta` for the
given file name. `size` is `+get("X-Content-Length")`, `contentType` is
`get("Content-type")`, `lastModified` is `+(get("X-Last-Modified") || "0")`,
`perm` is `get("X-Permission") || "rw"`. -/
def responseToMeta (name : String) (res : Response) : FileMeta :=
  { name := name
    size := jsUnaryPlus (headersGet res.headers "X-Content-Length")
    contentType := headersGet res.headers "Content-type"
    lastModified :=
      jsNumberOfString (jsOrString (headersGet res.headers "X-Last-Modified") "0")
    perm := jsOrString (headersGet res.headers "X-Permission") "rw" }

/-- `fetchFileList`: GET the base URL through `authenticatedFetch`. When a
truthy expected space path is configured and the `X-Space-Path` response
header differs from it (strict inequality, so an absent header also
differs), flush caches and unregister the service worker, alert the user,
and call `location.reload()`; the parsed JSON body is then returned either
way. -/
def fetchFileList (c : Client) (env : Env) (resp : Response) :
    Except JsError (List FileMeta) × Effects :=
  match authenticatedFetch env resp with
  | (Except.error e, eff) => (Except.error e, eff)
  | (Except.ok req, eff) =>
      if truthy c.expectedSpacePath
          && !(headersGet req.headers "X-Space-Path" == c.expectedSpacePath) then
        (Except.ok req.jsonList,
         { reloads := eff.reloads + 1, cacheFlushes := eff.cacheFlushes + 1,
           alerts := eff.alerts + 1 })
      else (Except.ok req.jsonList, eff)

/-- The `RequestInit` that `fetchFileList` sends (after credential
injection). -/
def fetchFileListRequest (c : Client) : RequestInit :=
  buildRequest c { method := "GET" }

/-- `readFile`: GET the file through `authenticatedFetch`; a 404 response
throws `Error("Page not found")`; otherwise the body is decoded per the
requested encoding and the metadata projected from the headers. `mimeType`
is the result of the external `mime.getType(name)` lookup (an opaque
collaborator), used only by the dataurl branch with an octet-stream
fallback. -/
def readFile (name : String) (encoding : FileEncoding) (env : Env)
    (mimeType : Option String) (resp : Response) :
    Except JsError (FileData × FileMeta) × Effects :=
  match authenticatedFetch env resp with
  | (Except.error e, eff) => (Except.error e, eff)
  | (Except.ok res, eff) =>
      if res.status == 404 then (Except.error ⟨"Page not found"⟩, eff)
      else
        let data : FileData :=
          match encoding with
          | .arraybuffer => .buffer res.bytes
          | .dataurl =>
              .str (base64EncodedDataUrl
                (jsOrString mimeType "application/octet-stream") res.bytes)
          | .utf8 => .str res.text
        (Except.ok (data, responseToMeta name res), eff)

/-- The `RequestInit` that `readFile` sends (after credential injection). -/
def readFileRequest (c : Client) : RequestInit :=
  buildRequest c { method := "GET" }

/-- The `data as string` coercion of the dataurl write branch: a TypeScript
cast, the identity at runtime (callers pass a string under the dataurl
encoding; on a buffer the subsequent string operations would throw, which
is outside the modelled behaviour). -/
def dataAsString : FileData → String
  | .str s => s
  | .buffer _ => ""

/-- The body computed by `writeFile`'s encoding switch, starting from
`body = null`. The arraybuffer branch normalizes an `ArrayBuffer` to a
`Uint8Array` over the same bytes; the utf8 branch sends the data as-is; the
dataurl branch decodes the data URL but assigns the result to the local
`data` variable, so `body` is left at `null`. -/
def writeBody (encoding : FileEncoding) (data : FileData) : Option Body :=
  match encoding with
  | .arraybuffer =>
      some (match data with
            | .buffer bs => Body.bytes bs
            | .str s => Body.str s)
  | .utf8 =>
      some (match data with
            | .buffer bs => Body.bytes bs
            | .str s => Body.str s)
  | .dataurl =>
      let _decoded := base64DecodeDataUrl (dataAsString data)
      none

/-- The header record `writeFile` constructs: always `Content-Type:
application/octet-stream`, plus `X-Last-Modified` when the caller's
`lastModified` is truthy (`undefined` and `0` are falsy). -/
def writeHeaders (lastModified : Option Int) : List (String × String) :=
  let hs := [("Content-Type", "application/octet-stream")]
  match lastModified with
  | some n => if n != 0 then hs ++ [("X-Last-Modified", toString n)] else hs
  | none => hs

/-- The `RequestInit` that `writeFile` hands to `authenticatedFetch`, before
credential injection. -/
def writeFileInit (encoding : FileEncoding) (data : FileData)
    (lastModified : Option Int) : RequestInit :=
  { method := "PUT", headers := writeHeaders lastModified,
    body := writeBody encoding data }

/-- The `RequestInit` that `writeFile` actually sends: the constructed
options after `authenticatedFetch`'s credential injection. -/
def writeFileRequest (c : Client) (encoding : FileEncoding) (data : FileData)
    (lastModified : Option Int) : RequestInit :=
  buildRequest c (writeFileInit encoding data lastModified)

/-- `writeFile`: PUT the encoded body through `authenticatedFetch` and
project the response headers to the returned metadata. -/
def writeFile (name : String) (env : Env) (resp : Response) :
    Except JsError FileMeta × Effects :=
  match authenticatedFetch env resp with
  | (Except.error e, eff) => (Except.error e, eff)
  | (Except.ok res, eff) => (Except.ok (responseToMeta name res), eff)

/-- `deleteFile`: DELETE through `authenticatedFetch`; any status other than
200 throws `Error("Failed to delete file: " + statusText)`. -/
def deleteFile (env : Env) (resp : Response) :
    Except JsError Unit × Effects :=
  match authenticatedFetch env resp with
  | (Except.error e, eff) => (Except.error e, eff)
  | (Except.ok req, eff) =>
      if req.status != 200 then
        (Except.error ⟨"Failed to delete file: " ++ req.statusText⟩, eff)
      else (Except.ok (), eff)

/-- The `RequestInit` that `deleteFile` sends (after credential
injection). -/
def deleteFileRequest (c : Client) : RequestInit :=
  buildRequest c { method := "DELETE" }

/-- `getFileMeta`: OPTIONS through `authenticatedFetch`; a 404 response
throws `Error("File not found")`; otherwise the metadata is projected from
the response headers. -/
def getFileMeta (name : String) (env : Env) (resp : Response) :
    Except JsError FileMeta × Effects :=
  match authenticatedFetch env resp with
  | (Except.error e, eff) => (Except.error e, eff)
  | (Except.ok res, eff) =>
      if res.status == 404 then (Except.error ⟨"File not found"⟩, eff)
      else (Except.ok (responseToMeta name res), eff)

/-- The `RequestInit` that `getFileMeta` sends (after credential
injection). -/
def getFileMetaRequest (c : Client) : RequestInit :=
  buildRequest c { method := "OPTIONS" }

/-! ## Helper lemmas -/

/-- Over a list with some entry keyed `k`, replacing every entry keyed `k`
by `(k, v)` makes `(k, v)` the entry that `find?` locates. -/
theorem find_map_replace (t : List (String × String)) (k v : String)
    (h : t.any (fun q => q.1 == k) = true) :
    (t.map (fun q => if q.1 == k then (k, v) else q)).find? (fun q => q.1 == k)
      = some (k, v) := by
  induction t with
  | nil => simp at h
  | cons p t ih =>
    by_cases hp : (p.1 == k) = true
    · rw [List.map_cons, if_pos hp]
      exact @List.find?_cons_of_pos _ (fun q => q.1 == k) (k, v) _ (by simp)
    · rw [List.map_cons, if_neg hp,
        @List.find?_cons_of_neg _ (fun q => q.1 == k) p _ hp]
      refine ih ?_
      rcases List.any_eq_true.mp h with ⟨q, hqmem, hq2⟩
      cases hqmem with
      | head => exact absurd hq2 hp
      | tail _ hmem => exact List.any_eq_true.mpr ⟨q, hmem, hq2⟩

/-- Over a list with no entry keyed `k`, appending `(k, v)` makes `(k, v)`
the entry that `find?` locates. -/
theorem find_append_single (t : List (String × String)) (k v : String)
    (h : t.any (fun q => q.1 == k) = false) :
    (t ++ [(k, v)]).find? (fun q => q.1 == k) = some (k, v) := by
  induction t with
  | nil => exact @List.find?_cons_of_pos _ (fun q => q.1 == k) (k, v) _ (by simp)
  | cons p t ih =>
    have hp : ¬((fun q : String × String => q.1 == k) p = true) := by
      intro hc
      have hx : (p :: t).any (fun q => q.1 == k) = true :=
        List.any_eq_true.mpr ⟨p, List.mem_cons_self p t, hc⟩
      rw [h] at hx
      exact Bool.false_ne_true hx
    rw [List.cons_append, @List.find?_cons_of_neg _ (fun q => q.1 == k) p _ hp]
    refine ih ?_
    cases ht : t.any (fun q => q.1 == k) with
    | false => rfl
    | true =>
      rcases List.any_eq_true.mp ht with ⟨q, hqmem, hq2⟩
      have hx : (p :: t).any (fun q => q.1 == k) = true :=
        List.any_eq_true.mpr ⟨q, List.mem_cons_of_mem p hqmem, hq2⟩
      rw [h] at hx
      exact absurd hx Bool.false_ne_true

/-- After `recordSet hs k v`, looking up key `k` yields `v`: assignment on a
JavaScript record makes the assigned binding the one that is found. -/
theorem recordGet_recordSet_self (hs : List (String × String)) (k v : String) :
    recordGet (recordSet hs k v) k = some v := by
  unfold recordSet recordGet
  by_cases h : hs.any (fun p => p.1 == k) = true
  · rw [if_pos h, find_map_replace hs k v h]
    rfl
  · have h2 : hs.any (fun p => p.1 == k) = false := Bool.eq_false_iff.mpr h
    rw [if_neg h, find_append_single hs k v h2]
    rfl

/-! ## Claim theorems -/

/-- C1: the claim states that a write with the dataurl encoding sends the
base64-decoded bytes of the supplied data URL as the request body. The
source instead assigns the decoded bytes to the local `data` variable and
never to `body`, so the PUT request is sent with a `null` body: at the
spec's own scenario input, the sent body is `none` while the decoded bytes
are `[0, 0, 0]`, and in particular the body is not the decoded bytes. -/
theorem C1_dataurl_write_body_null :
    (writeFileRequest {} FileEncoding.dataurl
        (FileData.str "data:image/png;base64,AAAA") none).body = none
    ∧ base64DecodeDataUrl "data:image/png;base64,AAAA" = [0, 0, 0]
    ∧ (writeFileRequest {} FileEncoding.dataurl
        (FileData.str "data:image/png;base64,AAAA") none).body
      ≠ some (Body.bytes (base64DecodeDataUrl "data:image/png;base64,AAAA")) := by
  refine ⟨rfl, by decide, ?_⟩
  intro h
  exact Option.noConfusion h

/-- C2 counterexample: at a concrete mismatched list-files exchange (an
expected space path is configured, the response's `X-Space-Path` header
differs, the response is otherwise clean) the client does flush caches,
alert and reload, but the parsed file list is nevertheless returned to the
caller as the result — refuting the claim that no file list reaches the
caller on a mismatch. -/
theorem C2_mismatch_returns_list :
    fetchFileList { expectedSpacePath := some "/space" } ⟨true⟩
      { status := 200, headers := [("X-Space-Path", "/other")],
        jsonList := [⟨"a.md", JsNum.int 1, some "text/markdown",
          JsNum.int 2, "rw"⟩] }
    = (Except.ok
        ([⟨"a.md", JsNum.int 1, some "text/markdown", JsNum.int 2, "rw"⟩]
          : List FileMeta),
       { reloads := 1, cacheFlushes := 1, alerts := 1 }) := by
  rfl

/-- C2 (amended): on a list-files call with a truthy expected space path, a
response that passes the transport check (not 401, not redirected) and whose
`X-Space-Path` header differs from the expected path, the client flushes its
caches, alerts the user and triggers exactly one reload — and then still
returns the parsed file list to the caller. -/
theorem C2_mismatch_flush_and_reload (c : Client) (env : Env) (resp : Response)
    (hsp : truthy c.expectedSpacePath = true)
    (hst : resp.status ≠ 401) (hrd : resp.redirected = false)
    (hmm : headersGet resp.headers "X-Space-Path" ≠ c.expectedSpacePath) :
    fetchFileList c env resp =
      (Except.ok resp.jsonList,
       { reloads := 1, cacheFlushes := 1, alerts := 1 }) := by
  have hst2 : (resp.status == 401) = false := by
    simp [hst]
  have hmm2 : (headersGet resp.headers "X-Space-Path"
      == c.expectedSpacePath) = false := by
    simp [hmm]
  simp [fetchFileList, authenticatedFetch, hst2, hrd, hsp, hmm2, noEffects]

/-- C2 witness: the amended theorem applied at a concrete mismatched
exchange. -/
theorem C2_mismatch_flush_and_reload_witness :
    fetchFileList { expectedSpacePath := some "/sp" } ⟨true⟩
      { status := 200 } =
      (Except.ok [], { reloads := 1, cacheFlushes := 1, alerts := 1 }) :=
  C2_mismatch_flush_and_reload { expectedSpacePath := some "/sp" } ⟨true⟩
    { status := 200 } (by decide) (by decide) rfl (by decide)

/-- C3: in a browser environment (a `location` global exists), whenever the
server response has status 401 or the response chain ended in a redirect,
every one of the five operations (list, read, write, delete, stat) rejects
with the authentication error `Unauthorized` and triggers exactly one
`location.reload()` (and no other side effect); no operation proceeds with
that response. -/
theorem C3_auth_failure_all_ops (name : String) (encoding : FileEncoding)
    (c : Client) (env : Env) (mimeType : Option String) (resp : Response)
    (hloc : env.hasLocation = true)
    (hauth : resp.status = 401 ∨ resp.redirected = true) :
    fetchFileList c env resp
      = (Except.error ⟨"Unauthorized"⟩, { reloads := 1 }) ∧
    readFile name encoding env mimeType resp
      = (Except.error ⟨"Unauthorized"⟩, { reloads := 1 }) ∧
    writeFile name env resp
      = (Except.error ⟨"Unauthorized"⟩, { reloads := 1 }) ∧
    deleteFile env resp
      = (Except.error ⟨"Unauthorized"⟩, { reloads := 1 }) ∧
    getFileMeta name env resp
      = (Except.error ⟨"Unauthorized"⟩, { reloads := 1 }) := by
  have hc : (resp.status == 401 || resp.redirected) = true := by
    rcases hauth with h | h <;> simp [h]
  have ha : authenticatedFetch env resp
      = (Except.error ⟨"Unauthorized"⟩, { reloads := 1 }) := by
    simp [authenticatedFetch, hc, hloc]
  refine ⟨?_, ?_, ?_, ?_, ?_⟩ <;>
    simp [fetchFileList, readFile, writeFile, deleteFile, getFileMeta, ha]

/-- C3 witness: the theorem applied at a concrete 401 exchange. -/
theorem C3_auth_failure_all_ops_witness :
    deleteFile ⟨true⟩ { status := 401 }
      = (Except.error ⟨"Unauthorized"⟩, { reloads := 1 }) :=
  (C3_auth_failure_all_ops "a.md" FileEncoding.utf8 {} ⟨true⟩ none
    { status := 401 } rfl (Or.inl rfl)).2.2.2.1

/-- C4: the metadata projection `responseToMeta` is a total Lean function of
the response (it never fails on any headers), and when the corresponding
header is absent it defaults `size` to `0`, `lastModified` to `0`, and
`perm` to `"rw"`. -/
theorem C4_meta_total_defaults (name : String) (res : Response)
    (hsz : headersGet res.headers "X-Content-Length" = none)
    (hlm : headersGet res.headers "X-Last-Modified" = none)
    (hpm : headersGet res.headers "X-Permission" = none) :
    (responseToMeta name res).size = JsNum.int 0 ∧
    (responseToMeta name res).lastModified = JsNum.int 0 ∧
    (responseToMeta name res).perm = "rw" := by
  refine ⟨?_, ?_, ?_⟩
  · simp [responseToMeta, hsz, jsUnaryPlus]
  · simp only [responseToMeta, hlm]
    decide
  · simp [responseToMeta, hpm, jsOrString]

/-- C4 witness: the theorem applied at a concrete response carrying none of
the metadata headers. -/
theorem C4_meta_total_defaults_witness :
    (responseToMeta "a.md" { status := 200 }).size = JsNum.int 0 ∧
    (responseToMeta "a.md" { status := 200 }).lastModified = JsNum.int 0 ∧
    (responseToMeta "a.md" { status := 200 }).perm = "rw" :=
  C4_meta_total_defaults "a.md" { status := 200 } rfl rfl rfl

/-- C5 counterexample: a caller-supplied last-modified timestamp of `0` (a
valid epoch timestamp) is treated as absent by the source's truthiness
check, so the sent request carries no `X-Last-Modified` header — refuting
the claim that every supplied timestamp is sent. -/
theorem C5_zero_timestamp_dropped :
    recordGet (writeFileRequest {} FileEncoding.utf8 (FileData.str "x")
      (some 0)).headers "X-Last-Modified" = none := by
  rfl

/-- C5 (amended): every write request carries `Content-Type:
application/octet-stream` regardless of encoding and content, and carries
`X-Last-Modified` equal to the caller's timestamp exactly when a truthy
(nonzero) timestamp was supplied — a supplied timestamp of `0` is treated
like an absent one and sends no header. -/
theorem C5_write_request_headers (c : Client) (encoding : FileEncoding)
    (data : FileData) (lastModified : Option Int) :
    recordGet (writeFileRequest c encoding data lastModified).headers
      "Content-Type" = some "application/octet-stream" ∧
    recordGet (writeFileRequest c encoding data lastModified).headers
      "X-Last-Modified"
      = (match lastModified with
         | some n => if n ≠ 0 then some (toString n) else none
         | none => none) := by
  have hbase : ∀ lm : Option Int,
      recordGet (writeHeaders lm) "Content-Type"
          = some "application/octet-stream" ∧
      recordGet (writeHeaders lm) "X-Last-Modified"
          = (match lm with
             | some n => if n ≠ 0 then some (toString n) else none
             | none => none) := by
    intro lm
    match lm with
    | none => exact ⟨rfl, rfl⟩
    | some n =>
      by_cases hn : n = 0
      · subst hn
        exact ⟨rfl, rfl⟩
      · have hn2 : (n != 0) = true := by simp [hn]
        constructor
        · simp [writeHeaders, hn2, recordGet, List.find?]
        · simp [writeHeaders, hn2, recordGet, List.find?, hn]
  by_cases hcred : (truthy c.user && truthy c.password) = true
  · have hset : (writeFileRequest c encoding data lastModified).headers
        = recordSet (writeHeaders lastModified) "cookie"
          (authCookieValue (c.user.getD "") (c.password.getD "")) := by
      simp [writeFileRequest, buildRequest, writeFileInit, hcred]
    have hck : ∀ lm : Option Int, recordSet (writeHeaders lm) "cookie"
        (authCookieValue (c.user.getD "") (c.password.getD ""))
        = writeHeaders lm
          ++ [("cookie", authCookieValue (c.user.getD "") (c.password.getD ""))] := by
      intro lm
      match lm with
      | none => simp [writeHeaders, recordSet]
      | some n =>
        by_cases hn : n = 0
        · subst hn; simp [writeHeaders, recordSet]
        · have hn2 : (n != 0) = true := by simp [hn]
          simp [writeHeaders, recordSet, hn2]
    rw [hset, hck]
    have hb := hbase lastModified
    constructor
    · rw [← hb.1]
      cases hlm : lastModified with
      | none => simp [writeHeaders, recordGet, List.find?]
      | some n =>
        by_cases hn : n = 0
        · subst hn; simp [writeHeaders, recordGet, List.find?]
        · have hn2 : (n != 0) = true := by simp [hn]
          simp [writeHeaders, recordGet, List.find?, hn2]
    · rw [← hb.2]
      cases hlm : lastModified with
      | none => simp [writeHeaders, recordGet, List.find?]
      | some n =>
        by_cases hn : n = 0
        · subst hn; simp [writeHeaders, recordGet, List.find?]
        · have hn2 : (n != 0) = true := by simp [hn]
          simp [writeHeaders, recordGet, List.find?, hn2]
  · have hset : (writeFileRequest c encoding data lastModified).headers
        = writeHeaders lastModified := by
      simp [writeFileRequest, buildRequest, writeFileInit, hcred]
    rw [hset]
    exact hbase lastModified

/-- C6 counterexample: a read whose response has status 404 but whose
response chain ended in a redirect fails with the authentication error
`Unauthorized`, not with `Page not found` — refuting the claim for every
404 response. -/
theorem C6_redirected_404_is_auth_error :
    (readFile "a.md" FileEncoding.utf8 ⟨true⟩ none
      { status := 404, redirected := true }).1
      = Except.error ⟨"Unauthorized"⟩ ∧
    (readFile "a.md" FileEncoding.utf8 ⟨true⟩ none
      { status := 404, redirected := true }).1
      ≠ Except.error ⟨"Page not found"⟩ := by
  refine ⟨rfl, ?_⟩
  intro h
  have := Except.error.inj h
  have := congrArg JsError.message this
  simp at this

/-- C6 (amended): on a non-redirected 404 response, reading fails with the
error `Page not found` and stat (`getFileMeta`) fails with the error
`File not found`; neither returns data or metadata. -/
theorem C6_notfound_messages (name : String) (encoding : FileEncoding)
    (env : Env) (mimeType : Option String) (resp : Response)
    (h404 : resp.status = 404) (hrd : resp.redirected = false) :
    readFile name encoding env mimeType resp
      = (Except.error ⟨"Page not found"⟩, noEffects) ∧
    getFileMeta name env resp
      = (Except.error ⟨"File not found"⟩, noEffects) := by
  have hst2 : (resp.status == 401) = false := by
    simp [h404]
  have h404b : (resp.status == 404) = true := by
    simp [h404]
  constructor
  · simp [readFile, authenticatedFetch, hst2, hrd, h404b]
  · simp [getFileMeta, authenticatedFetch, hst2, hrd, h404b]

/-- C6 witness: the amended theorem applied at a concrete clean 404
exchange. -/
theorem C6_notfound_messages_witness :
    readFile "b.md" FileEncoding.arraybuffer ⟨true⟩ none { status := 404 }
      = (Except.error ⟨"Page not found"⟩, noEffects) ∧
    getFileMeta "b.md" ⟨true⟩ { status := 404 }
      = (Except.error ⟨"File not found"⟩, noEffects) :=
  C6_notfound_messages "b.md" FileEncoding.arraybuffer ⟨true⟩ none
    { status := 404 } rfl rfl

/-- C7 counterexample: a delete whose response has status 401 (a status
other than 200) fails with the authentication error `Unauthorized`, not
with a `Failed to delete file` error embedding the status text — refuting
the claim for every non-200 response. -/
theorem C7_401_delete_is_auth_error :
    (deleteFile ⟨true⟩ { status := 401, statusText := "Unauthorized" }).1
      = Except.error ⟨"Unauthorized"⟩ ∧
    (deleteFile ⟨true⟩ { status := 401, statusText := "Unauthorized" }).1
      ≠ Except.error ⟨"Failed to delete file: Unauthorized"⟩ := by
  refine ⟨rfl, ?_⟩
  intro h
  have := Except.error.inj h
  have := congrArg JsError.message this
  simp at this

/-- C7 (amended): on a response that passes the transport check (not 401,
not redirected), a delete succeeds exactly when the status is 200, and any
other status fails with the error `Failed to delete file: ` followed by the
server's status text. -/
theorem C7_delete_status (env : Env) (resp : Response)
    (hst : resp.status ≠ 401) (hrd : resp.redirected = false) :
    deleteFile env resp
      = (if resp.status = 200 then (Except.ok (), noEffects)
         else (Except.error ⟨"Failed to delete file: " ++ resp.statusText⟩,
           noEffects)) := by
  have hst2 : (resp.status == 401) = false := by
    simp [hst]
  by_cases h200 : resp.status = 200
  · have h200b : (resp.status != 200) = false := by simp [h200]
    simp [deleteFile, authenticatedFetch, hst2, hrd, h200b, h200]
  · have h200b : (resp.status != 200) = true := by simp [h200]
    simp [deleteFile, authenticatedFetch, hst2, hrd, h200b, h200]

/-- C7 witness: the amended theorem applied at concrete 200 and 500
exchanges. -/
theorem C7_delete_status_witness :
    deleteFile ⟨true⟩ { status := 200 } = (Except.ok (), noEffects) ∧
    deleteFile ⟨true⟩ { status := 500, statusText := "Server Error" }
      = (Except.error ⟨"Failed to delete file: Server Error"⟩, noEffects) := by
  constructor
  · have h := C7_delete_status ⟨true⟩ { status := 200 } (by decide) rfl
    simpa using h
  · have h := C7_delete_status ⟨true⟩ { status := 500, statusText := "Server Error" }
      (by decide) rfl
    simpa using h

/-- C8: when both a username and a password are configured (truthy), the
request `authenticatedFetch` sends carries a `cookie` header exactly equal
to `auth=` followed by the base64 encoding of `user:password`, whatever
cookie header the caller supplied; when either credential is missing, the
caller's options are passed through unchanged. -/
theorem C8_auth_cookie (c : Client) (options : RequestInit) :
    (truthy c.user = true → truthy c.password = true →
      recordGet (buildRequest c options).headers "cookie"
        = some ("auth=" ++ btoa (c.user.getD "" ++ ":" ++ c.password.getD ""))) ∧
    (¬(truthy c.user = true ∧ truthy c.password = true) →
      buildRequest c options = options) := by
  constructor
  · intro hu hp
    have hc : (truthy c.user && truthy c.password) = true := by
      simp [hu, hp]
    rw [buildRequest, if_pos hc]
    exact recordGet_recordSet_self options.headers "cookie"
      (authCookieValue (c.user.getD "") (c.password.getD ""))
  · intro h
    have hc : (truthy c.user && truthy c.password) = false := by
      cases hu : truthy c.user <;> cases hp : truthy c.password <;>
        simp_all
    simp [buildRequest, hc]

/-- C8 witness: the theorem applied at a concrete client with credentials
and a caller-supplied cookie header, which is overwritten. -/
theorem C8_auth_cookie_witness :
    recordGet (buildRequest { user := some "u", password := some "p" }
      { method := "GET", headers := [("cookie", "caller")] }).headers "cookie"
      = some ("auth=" ++ btoa ((some "u").getD "" ++ ":" ++ (some "p").getD "")) :=
  (C8_auth_cookie { user := some "u", password := some "p" }
    { method := "GET", headers := [("cookie", "caller")] }).1
    (by decide) (by decide)

/-- C9: on every successful read, write and stat, the `name` field of the
returned metadata equals the `name` argument the caller passed, for every
response — the name is never taken from the HTTP response. -/
theorem C9_returned_meta_name (name : String) (encoding : FileEncoding)
    (env : Env) (mimeType : Option String) (r1 r2 r3 : Response) :
    (∀ d m, (readFile name encoding env mimeType r1).1 = Except.ok (d, m)
      → m.name = name) ∧
    (∀ m, (writeFile name env r2).1 = Except.ok m → m.name = name) ∧
    (∀ m, (getFileMeta name env r3).1 = Except.ok m → m.name = name) := by
  refine ⟨?_, ?_, ?_⟩
  · intro d m h
    unfold readFile authenticatedFetch at h
    by_cases hc : (r1.status == 401 || r1.redirected) = true
    · simp [hc] at h
    · by_cases h404 : (r1.status == 404) = true
      · simp [hc, h404] at h
      · simp [hc, h404] at h
        rw [← h.2]
        rfl
  · intro m h
    unfold writeFile authenticatedFetch at h
    by_cases hc : (r2.status == 401 || r2.redirected) = true
    · simp [hc] at h
    · simp [hc] at h
      rw [← h]
      rfl
  · intro m h
    unfold getFileMeta authenticatedFetch at h
    by_cases hc : (r3.status == 401 || r3.redirected) = true
    · simp [hc] at h
    · by_cases h404 : (r3.status == 404) = true
      · simp [hc, h404] at h
      · simp [hc, h404] at h
        rw [← h]
        rfl

/-- C9 witness: the theorem applied to a concrete successful write. -/
theorem C9_returned_meta_name_witness :
    (responseToMeta "n.md" { status := 200 }).name = "n.md" :=
  (C9_returned_meta_name "n.md" FileEncoding.utf8 ⟨true⟩ none
    { status := 200 } { status := 200 } { status := 200 }).2.1
    (responseToMeta "n.md" { status := 200 }) rfl

/-- C10: when the `X-Permission` response header is present and non-empty,
the metadata projection returns its value verbatim as `perm`, even when it
is neither `rw` nor `ro`; an absent or empty header yields the default
`rw`. -/
theorem C10_perm_header_verbatim (name : String) (res : Response)
    (p : String) :
    (headersGet res.headers "X-Permission" = some p → p ≠ "" →
      (responseToMeta name res).perm = p) ∧
    (headersGet res.headers "X-Permission" = none ∨
        headersGet res.headers "X-Permission" = some "" →
      (responseToMeta name res).perm = "rw") := by
  constructor
  · intro h hne
    simp [responseToMeta, h, jsOrString, hne]
  · rintro (h | h) <;> simp [responseToMeta, h, jsOrString]

/-- C10 witness: the theorem applied at a concrete response whose
`X-Permission` value is neither `rw` nor `ro`. -/
theorem C10_perm_header_verbatim_witness :
    (responseToMeta "c.md"
      { status := 200, headers := [("X-Permission", "admin")] }).perm
      = "admin" :=
  (C10_perm_header_verbatim "c.md"
    { status := 200, headers := [("X-Permission", "admin")] } "admin").1
    (by decide) (by decide)
